import Mathlib

/-!
# netgraph-server: chain listing and JSON result assembly

A shallow embedding of `netgraph-server.cc`: the functions `print_header`,
`list_entries` and `main`, over a model of the two libraries they drive
(the libiptc table handle and the json-glib `JsonBuilder`).
-/

namespace Netgraph

/-! ## JSON values and the json-glib builder -/

/-- The JSON values the program can build: strings, integers, arrays, objects.
Objects keep their members in insertion order. -/
inductive JsonNode where
  | str (s : String)
  | int (i : Int)
  | array (elems : List JsonNode)
  | object (members : List (String × JsonNode))

/-- The json-glib `json_object_set_member`: a member whose name is already present
has its value replaced in place, a new name is appended. -/
def json_object_set_member (ms : List (String × JsonNode)) (k : String) (v : JsonNode) :
    List (String × JsonNode) :=
  if k ∈ ms.map Prod.fst then ms.map (fun e => if e.1 = k then (e.1, v) else e)
  else ms ++ [(k, v)]

/-- The value of member `k`, when present. -/
def json_object_get_member (ms : List (String × JsonNode)) (k : String) : Option JsonNode :=
  (ms.find? (fun e => decide (e.1 = k))).map Prod.snd

/-- The mode of one open scope of the builder. -/
inductive JsonBuilderMode where
  | object
  | array
  | member
  deriving DecidableEq

/-- One open scope of the builder (`JsonBuilderState` of json-glib): its mode,
the object or array under construction, the pending member name, and the
member name of the parent object this scope was opened under (none when it was
opened as an array element or as the root). -/
structure JsonBuilderState where
  mode : JsonBuilderMode
  object : List (String × JsonNode)
  array : List JsonNode
  member_name : Option String
  parent_member : Option String

/-- The builder: the stack of open scopes (innermost first), the root node once
the outermost scope has been closed, and the number of calls that were rejected
by a precondition check (such a call leaves the builder as it was). -/
structure JsonBuilder where
  stack : List JsonBuilderState
  root : Option JsonNode
  criticals : Nat

/-- The builder returned by `json_builder_new`. -/
def json_builder_new : JsonBuilder :=
  { stack := [], root := none, criticals := 0 }

/-- A call rejected by a precondition check. -/
def JsonBuilder.reject (b : JsonBuilder) : JsonBuilder :=
  { b with criticals := b.criticals + 1 }

/-- Stores a finished value in a scope that is in member or array mode. -/
def JsonBuilderState.add (s : JsonBuilderState) (v : JsonNode) : JsonBuilderState :=
  match s.mode with
  | .member =>
    { s with object := json_object_set_member s.object (s.member_name.getD "") v,
             member_name := none, mode := .object }
  | .array => { s with array := s.array ++ [v] }
  | .object => s

/-- The mode test of json-glib: a value may be added in member or array mode. -/
def JsonBuilderState.valid_add_mode (s : JsonBuilderState) : Bool :=
  match s.mode with
  | .member => true
  | .array => true
  | .object => false

/-- Hands a closed scope to its parent, or makes it the root when it was the
outermost one. -/
def JsonBuilder.attach (b : JsonBuilder) (slot : Option String) (v : JsonNode)
    (rest : List JsonBuilderState) : JsonBuilder :=
  match rest with
  | [] => { b with stack := [], root := some v }
  | p :: rest2 =>
    match slot with
    | some k => { b with stack := { p with object := json_object_set_member p.object k v } :: rest2 }
    | none => { b with stack := { p with array := p.array ++ [v] } :: rest2 }

/-- Opens a scope of the given mode under the current one. -/
def JsonBuilder.push (b : JsonBuilder) (m : JsonBuilderMode) : JsonBuilder :=
  match b.root with
  | some _ => b.reject
  | none =>
    match b.stack with
    | [] =>
      { b with stack := [{ mode := m, object := [], array := [], member_name := none,
                           parent_member := none }] }
    | s :: rest =>
      if s.valid_add_mode then
        match s.mode with
        | .member =>
          { b with stack :=
              { mode := m, object := [], array := [], member_name := none,
                parent_member := some (s.member_name.getD "") } ::
              { s with member_name := none, mode := .object } :: rest }
        | _ =>
          { b with stack :=
              { mode := m, object := [], array := [], member_name := none,
                parent_member := none } :: s :: rest }
      else b.reject

/-- The json-glib `json_builder_begin_object`. -/
def json_builder_begin_object (b : JsonBuilder) : JsonBuilder :=
  b.push .object

/-- The json-glib `json_builder_begin_array`. -/
def json_builder_begin_array (b : JsonBuilder) : JsonBuilder :=
  b.push .array

/-- The json-glib `json_builder_end_object`. -/
def json_builder_end_object (b : JsonBuilder) : JsonBuilder :=
  match b.stack with
  | [] => b.reject
  | s :: rest =>
    match s.mode with
    | .object => b.attach s.parent_member (.object s.object) rest
    | _ => b.reject

/-- The json-glib `json_builder_end_array`. -/
def json_builder_end_array (b : JsonBuilder) : JsonBuilder :=
  match b.stack with
  | [] => b.reject
  | s :: rest =>
    match s.mode with
    | .array => b.attach s.parent_member (.array s.array) rest
    | _ => b.reject

/-- The json-glib `json_builder_set_member_name`. -/
def json_builder_set_member_name (b : JsonBuilder) (member_name : String) : JsonBuilder :=
  match b.stack with
  | [] => b.reject
  | s :: rest =>
    match s.mode with
    | .object => { b with stack := { s with member_name := some member_name, mode := .member } :: rest }
    | _ => b.reject

/-- The common part of the json-glib `json_builder_add_*_value` calls. -/
def JsonBuilder.add_value (b : JsonBuilder) (v : JsonNode) : JsonBuilder :=
  match b.stack with
  | [] => b.reject
  | s :: rest => if s.valid_add_mode then { b with stack := s.add v :: rest } else b.reject

/-- The json-glib `json_builder_add_string_value`. -/
def json_builder_add_string_value (b : JsonBuilder) (value : String) : JsonBuilder :=
  b.add_value (.str value)

/-- The json-glib `json_builder_add_int_value`. -/
def json_builder_add_int_value (b : JsonBuilder) (value : Int) : JsonBuilder :=
  b.add_value (.int value)

/-- The json-glib `json_builder_get_root`. -/
def json_builder_get_root (b : JsonBuilder) : Option JsonNode :=
  b.root

/-- A builder whose current scope is an object with members `ms`, no member name
pending, opened under `pm`, with `rest` the enclosing scopes. -/
def JsonBuilder.in_object (ms : List (String × JsonNode)) (arr : List JsonNode)
    (pm : Option String) (rest : List JsonBuilderState) (crit : Nat) : JsonBuilder :=
  { stack := { mode := .object, object := ms, array := arr, member_name := none,
               parent_member := pm } :: rest,
    root := none, criticals := crit }

/-- The members of the object that is the current scope of the builder. -/
def JsonBuilder.current_members (b : JsonBuilder) : List (String × JsonNode) :=
  match b.stack with
  | [] => []
  | s :: _ => s.object

/-! ## The libiptc table handle -/

/-- The packet and byte counters of a chain (`struct xt_counters`): two unsigned
64-bit counts. -/
structure xt_counters where
  pcnt : Nat
  bcnt : Nat

/-- The conversion of an unsigned 64-bit count to the signed 64-bit integer that
`json_builder_add_int_value` takes: a count below 2^63 keeps its value, a count
from 2^63 on comes out negative, lowered by 2^64. -/
def gint64_of_u64 (n : Nat) : Int :=
  if n % 2 ^ 64 < 2 ^ 63 then ((n % 2 ^ 64 : Nat) : Int)
  else ((n % 2 ^ 64 : Nat) : Int) - 2 ^ 64

/-- A rule of a chain; its content is not looked at. -/
abbrev ipt_entry := Nat

/-- The opened table as the program sees it through libiptc: the chain names that
`iptc_first_chain` and `iptc_next_chain` yield, in order, before they return NULL;
the errno value they leave when they return NULL (none: errno untouched); and the
per-chain queries `iptc_get_policy` (policy and counters, none for NULL),
`iptc_get_references` (the count when the call succeeds) and the rules that
`iptc_first_rule` and `iptc_next_rule` yield. -/
structure xtc_handle where
  chain_names : List String
  end_errno : Option Nat
  get_policy : String → Option (String × xt_counters)
  get_references : String → Option Nat
  rules : String → List ipt_entry

/-- The errno value ENOENT. -/
def ENOENT : Nat := 2
/-- The errno value EAGAIN. -/
def EAGAIN : Nat := 11
/-- The errno value EINVAL. -/
def EINVAL : Nat := 22
/-- The exit status RESOURCE_PROBLEM of the xtables exit types. -/
def RESOURCE_PROBLEM : Nat := 4

/-! ## print_header and list_entries -/

/-- The function `print_header` (lines 51-84). -/
def print_header (handle : xtc_handle) (chain : String) (builder : JsonBuilder) : JsonBuilder :=
  match handle.get_policy chain with
  | some (pol, counters) =>
    let builder := json_builder_set_member_name builder "type"
    let builder := json_builder_add_string_value builder "builtin"
    let builder := json_builder_set_member_name builder "policy"
    let builder := json_builder_add_string_value builder pol
    let builder := json_builder_set_member_name builder "packets"
    let builder := json_builder_add_int_value builder (gint64_of_u64 counters.pcnt)
    let builder := json_builder_set_member_name builder "bytes"
    json_builder_add_int_value builder (gint64_of_u64 counters.bcnt)
  | none =>
    let builder := json_builder_set_member_name builder "type"
    let builder := json_builder_add_string_value builder "user"
    match handle.get_references chain with
    | some refs =>
      let builder := json_builder_set_member_name builder "refs"
      json_builder_add_int_value builder refs
    | none => builder

/-- The inner `while (i)` loop of `list_entries` (lines 116-127): walks the rules
of the chain and counts them in `rule_num`. -/
def rule_loop : List ipt_entry → Nat → Nat
  | [], rule_num => rule_num
  | _ :: rest, rule_num => rule_loop rest (rule_num + 1)

/-- The body of the chain loop of `list_entries` for a chain that passes the
filter (lines 106-131); the new value of `found` is true. -/
def list_chain_body (handle : xtc_handle) (this_chain : String) (builder : JsonBuilder) :
    JsonBuilder :=
  let builder := json_builder_set_member_name builder this_chain
  let builder := json_builder_begin_object builder
  let builder := print_header handle this_chain builder
  let builder := json_builder_set_member_name builder "rules"
  let builder := json_builder_begin_array builder
  let _rule_num := rule_loop (handle.rules this_chain) 0
  let builder := json_builder_end_array builder
  json_builder_end_object builder

/-- The chain loop of `list_entries` (lines 96-132) over the chain names still to
be enumerated, carrying the builder and `found`. -/
def chain_loop (handle : xtc_handle) (list_chain : Option String) :
    List String → JsonBuilder × Bool → JsonBuilder × Bool
  | [], st => st
  | this_chain :: rest, (builder, found) =>
    match list_chain with
    | some name =>
      if name ≠ this_chain then chain_loop handle list_chain rest (builder, found)
      else chain_loop handle list_chain rest (list_chain_body handle this_chain builder, true)
    | none => chain_loop handle list_chain rest (list_chain_body handle this_chain builder, true)

/-- What `list_entries` leaves behind: its return value, errno, and the builder. -/
structure ListEntriesResult where
  found : Bool
  errno : Nat
  builder : JsonBuilder

/-- The function `list_entries` (lines 86-138). The argument `errno` is the value
of errno on entry; the enumeration may overwrite it when it ends, and line 136
assigns it last. -/
def list_entries (handle : xtc_handle) (list_chain : Option String) (builder : JsonBuilder)
    (errno : Nat) : ListEntriesResult :=
  let builder := json_builder_set_member_name builder "chains"
  let builder := json_builder_begin_object builder
  let st := chain_loop handle list_chain handle.chain_names (builder, false)
  let _errno := handle.end_errno.getD errno
  let builder := json_builder_end_object st.1
  { found := st.2, errno := if st.2 then 0 else ENOENT, builder := builder }

/-! ## main -/

/-- Everything `main` reads from outside: the build-time package strings, whether
constructing the `Cgicc` object throws (and with which message), the cgicc version
and gateway-interface strings, the return value of `xtables_init_all`, the handle
`iptc_init` returns (none for NULL), the value of errno after `iptc_init`,
`iptc_strerror`, and the value of errno that the calls writing the diagnostic line
of lines 253-260 (`iptc_strerror` and `fprintf`) leave behind (none: they leave
errno as it was). -/
structure Env where
  PACKAGE_NAME : String
  PACKAGE_VERSION : String
  PACKAGE_URL : String
  cgicc_exception : Option String
  cgicc_version : String
  gateway_interface : String
  xtables_init_all : Int
  iptc_init : Option xtc_handle
  errno : Nat
  iptc_strerror : Nat → String
  diagnostic_errno : Option Nat

/-- The response written to standard output at lines 300-305: the status line,
the Server header and the body, which is the serialized root node of the builder
(none when the builder has no root). -/
structure HTTPResponse where
  status : Nat
  reason : String
  server : String
  content_type : String
  body : Option JsonNode

/-- What a run of `main` does: the exit status, the response on standard output
(none when nothing is written there), the lines on the error stream, the number of
`iptc_free` calls, and the builder as it is when the process exits. -/
structure Outcome where
  exit_status : Nat
  stdout : Option HTTPResponse
  stderr : List String
  iptc_free_calls : Nat
  builder : JsonBuilder

/-- How the `try` block of `main` (lines 209-267) ends: by a thrown
`netgraph_exception`, by a call of `exit`, or by reaching its end. -/
inductive TryResult where
  | thrown (what : String)
  | exited (status : Nat) (stderr : List String) (iptc_free_calls : Nat) (builder : JsonBuilder)
  | completed (http_status_code : Nat) (stderr : List String) (iptc_free_calls : Nat)
      (builder : JsonBuilder)

/-- The builder calls of lines 194-207: the root object is opened and the
`protocol`, `app` and `version` members are written. -/
def main_header (env : Env) : JsonBuilder :=
  let builder := json_builder_new
  let builder := json_builder_begin_object builder
  let builder := json_builder_set_member_name builder "protocol"
  let builder := json_builder_add_string_value builder env.PACKAGE_NAME
  let builder := json_builder_set_member_name builder "app"
  let builder := json_builder_add_string_value builder env.PACKAGE_URL
  let builder := json_builder_set_member_name builder "version"
  let builder := json_builder_begin_array builder
  let builder := json_builder_add_int_value builder 1
  let builder := json_builder_add_int_value builder 1
  json_builder_end_array builder

/-- The `try` block of `main` (lines 209-267). The chain filter passed to
`list_entries` is the variable `chain`, which is NULL throughout. Line 253 reads
errno as `list_entries` left it; line 261 reads it again after the diagnostic line
was written. -/
def main_try (env : Env) (builder : JsonBuilder) : TryResult :=
  if env.xtables_init_all ≠ 0 then
    .thrown "failed to initialize xtables"
  else
    match env.iptc_init with
    | none =>
      .thrown ("failed to initialize iptables table \x27" ++ "filter" ++ "\x27: "
        ++ env.iptc_strerror env.errno)
    | some handle =>
      let r := list_entries handle none builder env.errno
      if r.found then
        .completed 200 [] 1 r.builder
      else
        let line :=
          if r.errno = EINVAL then
            "iptables: " ++ env.iptc_strerror r.errno ++ ". Run \x60dmesg\x27 for more information."
          else "iptables: " ++ env.iptc_strerror r.errno ++ "."
        let errno := env.diagnostic_errno.getD r.errno
        if errno = EAGAIN then
          .exited RESOURCE_PROBLEM [line] 0 r.builder
        else
          .completed 200 [line] 0 r.builder

/-- Lines 288-307 of `main`: the root object is closed, the document is
serialized and written after the response header, and the process exits. -/
def main_finish (env : Env) (http_status_code : Nat) (stderr : List String)
    (iptc_free_calls : Nat) (builder : JsonBuilder) : Outcome :=
  let builder := json_builder_end_object builder
  let root := json_builder_get_root builder
  { exit_status := if http_status_code = 200 then 0 else 1,
    stdout := some
      { status := http_status_code,
        reason := if http_status_code = 200 then "OK" else "Application Error",
        server := env.PACKAGE_NAME ++ "/" ++ env.PACKAGE_VERSION ++ " (GNU cgicc/"
          ++ env.cgicc_version ++ ")",
        content_type := "application/json",
        body := root },
    stderr := stderr,
    iptc_free_calls := iptc_free_calls,
    builder := builder }

/-- The function `main` (lines 164-308). -/
def main (env : Env) : Outcome :=
  match env.cgicc_exception with
  | some what =>
    { exit_status := 1, stdout := none,
      stderr := ["Failed to initialize Cgicc: " ++ what],
      iptc_free_calls := 0, builder := json_builder_new }
  | none =>
    let http_status_code := 500
    let builder := main_header env
    let isCommandLine := decide (env.gateway_interface = "")
    match main_try env builder with
    | .exited status stderr frees b =>
      { exit_status := status, stdout := none, stderr := stderr,
        iptc_free_calls := frees, builder := b }
    | .completed code stderr frees b => main_finish env code stderr frees b
    | .thrown what =>
      if isCommandLine then
        { exit_status := 1, stdout := none,
          stderr := [env.PACKAGE_NAME ++ ": " ++ what],
          iptc_free_calls := 0, builder := builder }
      else
        let builder := json_builder_set_member_name builder "error"
        let builder := json_builder_add_string_value builder what
        main_finish env http_status_code [] 0 builder

/-! ## The document the calls build -/

/-- The members `print_header` writes for a chain. -/
def header_members (handle : xtc_handle) (chain : String) : List (String × JsonNode) :=
  match handle.get_policy chain with
  | some (pol, counters) =>
    [("type", .str "builtin"), ("policy", .str pol),
     ("packets", .int (gint64_of_u64 counters.pcnt)),
     ("bytes", .int (gint64_of_u64 counters.bcnt))]
  | none =>
    match handle.get_references chain with
    | some refs => [("type", .str "user"), ("refs", .int refs)]
    | none => [("type", .str "user")]

/-- The summary object of a chain: the header members followed by the empty
`rules` array. -/
def chain_summary (handle : xtc_handle) (chain : String) : JsonNode :=
  .object (header_members handle chain ++ [("rules", .array [])])

/-- Whether a chain name passes the filter of `list_entries`. -/
def passes (list_chain : Option String) (this_chain : String) : Bool :=
  match list_chain with
  | some name => decide (name = this_chain)
  | none => true

/-- Writes the members `es` into the object `ms`, one after the other. -/
def set_members (ms es : List (String × JsonNode)) : List (String × JsonNode) :=
  es.foldl (fun acc e => json_object_set_member acc e.1 e.2) ms

/-- The member names of an object, in order. -/
def member_names (ms : List (String × JsonNode)) : List String :=
  ms.map Prod.fst

/-- The members the chain loop writes into an object scope holding `ms`: the
summary of every chain name that passes the filter, in order. -/
def chain_entries (handle : xtc_handle) (list_chain : Option String) (names : List String)
    (ms : List (String × JsonNode)) : List (String × JsonNode) :=
  (names.filter (passes list_chain)).foldl
    (fun acc n => json_object_set_member acc n (chain_summary handle n)) ms

/-- Appends a name to a list of names unless it is there already. -/
def add_name (ks : List String) (k : String) : List String :=
  if k ∈ ks then ks else ks ++ [k]

/-- An example table: the builtin chain INPUT with policy ACCEPT and ten rules, and
the user-defined chain LOGDROP with two references. -/
def filter_table : xtc_handle :=
  { chain_names := ["INPUT", "LOGDROP"],
    end_errno := none,
    get_policy := fun c => if c = "INPUT" then some ("ACCEPT", { pcnt := 120, bcnt := 9000 }) else none,
    get_references := fun c => if c = "LOGDROP" then some 2 else none,
    rules := fun c => if c = "INPUT" then List.range 10 else [] }

/-- An example table with one user-defined chain whose reference count cannot be
read. -/
def orphan_table : xtc_handle :=
  { chain_names := ["ORPHAN"],
    end_errno := none,
    get_policy := fun _ => none,
    get_references := fun _ => none,
    rules := fun _ => [] }

/-- An example table whose chain enumeration yields nothing. -/
def empty_table : xtc_handle :=
  { chain_names := [],
    end_errno := none,
    get_policy := fun _ => none,
    get_references := fun _ => none,
    rules := fun _ => [] }

/-- An example table whose chain enumeration stops at once and leaves errno at
EAGAIN. -/
def busy_table : xtc_handle :=
  { chain_names := [],
    end_errno := some EAGAIN,
    get_policy := fun _ => none,
    get_references := fun _ => none,
    rules := fun _ => [] }

/-- An example table whose chain enumeration yields INPUT and then stops, leaving
errno at EAGAIN. -/
def busy_after_input_table : xtc_handle :=
  { chain_names := ["INPUT"],
    end_errno := some EAGAIN,
    get_policy := fun _ => some ("ACCEPT", { pcnt := 0, bcnt := 0 }),
    get_references := fun _ => none,
    rules := fun _ => [] }

/-- An example run from the command line: no gateway interface, xtables
initialised, `iptc_init` returning the given handle. -/
def cli_env (handle : Option xtc_handle) : Env :=
  { PACKAGE_NAME := "netgraph", PACKAGE_VERSION := "0.1",
    PACKAGE_URL := "http://netgraph.example/",
    cgicc_exception := none, cgicc_version := "3.2.9", gateway_interface := "",
    xtables_init_all := 0, iptc_init := handle, errno := 0,
    iptc_strerror := fun e =>
      if e = ENOENT then "No chain/target/match by that name" else "Unknown error",
    diagnostic_errno := none }

/-- The same example run behind a web server. -/
def cgi_env (handle : Option xtc_handle) : Env :=
  { cli_env handle with gateway_interface := "CGI/1.1" }

/-- The example run from the command line in which writing the diagnostic line
leaves errno at EAGAIN (the error stream would block). -/
def blocked_stderr_env (handle : Option xtc_handle) : Env :=
  { cli_env handle with diagnostic_errno := some EAGAIN }

theorem set_name_add_in_object (ms : List (String × JsonNode)) (arr : List JsonNode)
    (pm : Option String) (rest : List JsonBuilderState) (crit : Nat) (k : String)
    (v : JsonNode) :
    (json_builder_set_member_name (JsonBuilder.in_object ms arr pm rest crit) k).add_value v
      = JsonBuilder.in_object (json_object_set_member ms k v) arr pm rest crit := rfl

theorem set_name_object_in_object (ms ms2 : List (String × JsonNode)) (arr : List JsonNode)
    (pm : Option String) (rest : List JsonBuilderState) (crit : Nat) (k : String) :
    json_builder_begin_object
        (json_builder_set_member_name (JsonBuilder.in_object ms arr pm rest crit) k)
      = JsonBuilder.in_object [] [] (some k)
          ({ mode := .object, object := ms, array := arr, member_name := none,
             parent_member := pm } :: rest) crit
    ∧ json_builder_end_object (JsonBuilder.in_object ms2 [] (some k)
          ({ mode := .object, object := ms, array := arr, member_name := none,
             parent_member := pm } :: rest) crit)
      = JsonBuilder.in_object (json_object_set_member ms k (.object ms2)) arr pm rest crit :=
  ⟨rfl, rfl⟩

theorem set_name_empty_array_in_object (ms : List (String × JsonNode)) (arr : List JsonNode)
    (pm : Option String) (rest : List JsonBuilderState) (crit : Nat) (k : String) :
    json_builder_end_array (json_builder_begin_array
        (json_builder_set_member_name (JsonBuilder.in_object ms arr pm rest crit) k))
      = JsonBuilder.in_object (json_object_set_member ms k (.array [])) arr pm rest crit := rfl

theorem print_header_in_object (handle : xtc_handle) (chain : String)
    (ms : List (String × JsonNode)) (arr : List JsonNode)
    (pm : Option String) (rest : List JsonBuilderState) (crit : Nat) :
    print_header handle chain (JsonBuilder.in_object ms arr pm rest crit)
      = JsonBuilder.in_object (set_members ms (header_members handle chain)) arr pm rest crit := by
  unfold print_header header_members
  cases hp : handle.get_policy chain with
  | some pc =>
    obtain ⟨pol, counters⟩ := pc
    rfl
  | none =>
    cases hr : handle.get_references chain with
    | some refs => rfl
    | none => rfl

theorem set_members_header_nil (handle : xtc_handle) (chain : String) :
    set_members [] (header_members handle chain) = header_members handle chain := by
  unfold header_members
  cases handle.get_policy chain with
  | some pc =>
    obtain ⟨pol, counters⟩ := pc
    simp [set_members, json_object_set_member]
  | none =>
    cases handle.get_references chain with
    | some refs => simp [set_members, json_object_set_member]
    | none => simp [set_members, json_object_set_member]

theorem set_rules_header (handle : xtc_handle) (chain : String) (v : JsonNode) :
    json_object_set_member (header_members handle chain) "rules" v
      = header_members handle chain ++ [("rules", v)] := by
  unfold header_members
  cases handle.get_policy chain with
  | some pc =>
    obtain ⟨pol, counters⟩ := pc
    simp [json_object_set_member]
  | none =>
    cases handle.get_references chain with
    | some refs => simp [json_object_set_member]
    | none => simp [json_object_set_member]

theorem list_chain_body_in_object (handle : xtc_handle) (this_chain : String)
    (ms : List (String × JsonNode)) (arr : List JsonNode)
    (pm : Option String) (rest : List JsonBuilderState) (crit : Nat) :
    list_chain_body handle this_chain (JsonBuilder.in_object ms arr pm rest crit)
      = JsonBuilder.in_object
          (json_object_set_member ms this_chain (chain_summary handle this_chain))
          arr pm rest crit := by
  unfold list_chain_body
  simp only []
  rw [(set_name_object_in_object ms [] arr pm rest crit this_chain).1,
    print_header_in_object, set_members_header_nil, set_name_empty_array_in_object,
    set_rules_header, (set_name_object_in_object ms _ arr pm rest crit this_chain).2]
  rfl

theorem chain_loop_in_object (handle : xtc_handle) (list_chain : Option String)
    (names : List String) (ms : List (String × JsonNode)) (arr : List JsonNode)
    (pm : Option String) (rest : List JsonBuilderState) (crit : Nat) (found : Bool) :
    chain_loop handle list_chain names (JsonBuilder.in_object ms arr pm rest crit, found)
      = (JsonBuilder.in_object (chain_entries handle list_chain names ms) arr pm rest crit,
         found || names.any (passes list_chain)) := by
  induction names generalizing ms found with
  | nil => simp [chain_loop, chain_entries]
  | cons n names ih =>
    cases list_chain with
    | none =>
      simp only [chain_loop, list_chain_body_in_object, ih]
      simp [chain_entries, passes]
    | some name =>
      by_cases hn : name = n
      · subst hn
        simp only [chain_loop, list_chain_body_in_object, ih]
        simp [chain_entries, passes]
      · simp only [chain_loop, ih]
        simp [chain_entries, passes, hn]

theorem list_entries_in_object (handle : xtc_handle) (list_chain : Option String)
    (ms : List (String × JsonNode)) (arr : List JsonNode)
    (pm : Option String) (rest : List JsonBuilderState) (crit : Nat) (errno : Nat) :
    list_entries handle list_chain (JsonBuilder.in_object ms arr pm rest crit) errno
      = { found := handle.chain_names.any (passes list_chain),
          errno := if handle.chain_names.any (passes list_chain) then 0 else ENOENT,
          builder := JsonBuilder.in_object
            (json_object_set_member ms "chains"
              (.object (chain_entries handle list_chain handle.chain_names [])))
            arr pm rest crit } := by
  unfold list_entries
  simp only []
  rw [(set_name_object_in_object ms [] arr pm rest crit "chains").1, chain_loop_in_object,
    (set_name_object_in_object ms _ arr pm rest crit "chains").2]
  simp

/-! ## Members of an object after writes -/

theorem member_names_set_member (ms : List (String × JsonNode)) (k : String) (v : JsonNode) :
    member_names (json_object_set_member ms k v) = add_name (member_names ms) k := by
  unfold json_object_set_member add_name member_names
  by_cases hk : k ∈ ms.map Prod.fst
  · simp only [hk, if_true, List.map_map]
    apply List.map_congr_left
    intro e _
    by_cases he : e.1 = k <;> simp [he]
  · simp [hk]

theorem get_member_set_member (ms : List (String × JsonNode)) (k : String) (v : JsonNode) :
    json_object_get_member (json_object_set_member ms k v) k = some v := by
  unfold json_object_get_member json_object_set_member
  by_cases hk : k ∈ ms.map Prod.fst
  · simp only [hk, if_true]
    induction ms with
    | nil => simp at hk
    | cons e ms ih =>
      by_cases he : e.1 = k
      · simp [List.find?, he]
      · have hk2 : k ∈ ms.map Prod.fst := by
          simp only [List.map_cons, List.mem_cons] at hk
          rcases hk with hk | hk
          · exact absurd hk.symm he
          · exact hk
        simp only [List.map_cons, he, if_false, List.find?_cons, decide_False]
        exact ih hk2
  · simp only [hk, if_false]
    have hnone : ms.find? (fun e => decide (e.1 = k)) = none := by
      rw [List.find?_eq_none]
      intro e he hek
      apply hk
      simp only [decide_eq_true_eq] at hek
      exact List.mem_map.mpr ⟨e, he, hek⟩
    simp [List.find?_append, hnone]

theorem values_set_member (f : String → JsonNode) (ms : List (String × JsonNode))
    (k : String) (hms : ∀ e ∈ ms, e.2 = f e.1) :
    ∀ e ∈ json_object_set_member ms k (f k), e.2 = f e.1 := by
  unfold json_object_set_member
  intro e he
  by_cases hk : k ∈ ms.map Prod.fst
  · simp only [hk, if_true, List.mem_map] at he
    obtain ⟨e0, he0, rfl⟩ := he
    by_cases h0 : e0.1 = k
    · simp [h0]
    · simp [h0, hms e0 he0]
  · simp only [hk, if_false, List.mem_append, List.mem_singleton] at he
    rcases he with he | rfl
    · exact hms e he
    · rfl

/-! ## Names kept at their first occurrence -/

theorem foldl_add_name_nodup (names acc : List String) (hacc : acc.Nodup) :
    (names.foldl add_name acc).Nodup := by
  induction names generalizing acc with
  | nil => simpa using hacc
  | cons n names ih =>
    simp only [List.foldl_cons]
    apply ih
    unfold add_name
    by_cases hn : n ∈ acc
    · simpa [hn] using hacc
    · simp only [hn, if_false]
      rw [List.nodup_append]
      refine ⟨hacc, List.nodup_singleton n, ?_⟩
      intro a ha hb
      simp only [List.mem_singleton] at hb
      exact hn (hb ▸ ha)

theorem mem_foldl_add_name (names acc : List String) (k : String) :
    k ∈ names.foldl add_name acc ↔ k ∈ acc ∨ k ∈ names := by
  induction names generalizing acc with
  | nil => simp
  | cons n names ih =>
    simp only [List.foldl_cons, ih, List.mem_cons]
    unfold add_name
    by_cases hn : n ∈ acc
    · simp only [hn, if_true]
      constructor
      · rintro (h | h)
        · exact Or.inl h
        · exact Or.inr (Or.inr h)
      · rintro (h | h | h)
        · exact Or.inl h
        · exact Or.inl (h ▸ hn)
        · exact Or.inr h
    · simp only [hn, if_false, List.mem_append, List.mem_singleton]
      tauto

theorem foldl_add_name_sublist (names acc : List String) :
    ∃ t, names.foldl add_name acc = acc ++ t ∧ t.Sublist names := by
  induction names generalizing acc with
  | nil => exact ⟨[], by simp, List.Sublist.refl _⟩
  | cons n names ih =>
    simp only [List.foldl_cons]
    obtain ⟨t, ht, hsub⟩ := ih (add_name acc n)
    by_cases hn : n ∈ acc
    · have hadd : add_name acc n = acc := by simp [add_name, hn]
      rw [hadd] at ht ⊢
      exact ⟨t, ht, hsub.cons n⟩
    · have hadd : add_name acc n = acc ++ [n] := by simp [add_name, hn]
      rw [hadd] at ht ⊢
      refine ⟨n :: t, ?_, hsub.cons₂ n⟩
      rw [ht]
      simp

theorem foldl_add_name_of_nodup (names acc : List String) (h : (acc ++ names).Nodup) :
    names.foldl add_name acc = acc ++ names := by
  induction names generalizing acc with
  | nil => simp
  | cons n names ih =>
    have hn : n ∉ acc := by
      intro hmem
      rw [List.nodup_append] at h
      exact h.2.2 hmem (List.mem_cons_self n names)
    simp only [List.foldl_cons, add_name, hn, if_false]
    rw [ih]
    · simp
    · simpa using h

theorem member_names_chain_entries (handle : xtc_handle) (list_chain : Option String)
    (names : List String) (ms : List (String × JsonNode)) :
    member_names (chain_entries handle list_chain names ms)
      = (names.filter (passes list_chain)).foldl add_name (member_names ms) := by
  unfold chain_entries
  generalize names.filter (passes list_chain) = sel
  induction sel generalizing ms with
  | nil => rfl
  | cons n sel ih => simp only [List.foldl_cons, ih, member_names_set_member]

theorem values_chain_entries (handle : xtc_handle) (list_chain : Option String)
    (names : List String) (ms : List (String × JsonNode))
    (hms : ∀ e ∈ ms, e.2 = chain_summary handle e.1) :
    ∀ e ∈ chain_entries handle list_chain names ms, e.2 = chain_summary handle e.1 := by
  unfold chain_entries
  generalize names.filter (passes list_chain) = sel
  induction sel generalizing ms with
  | nil => simpa using hms
  | cons n sel ih =>
    simp only [List.foldl_cons]
    exact ih _ (values_set_member (chain_summary handle) ms n hms)

theorem entries_eq_map_names (f : String → JsonNode) (ms : List (String × JsonNode))
    (hms : ∀ e ∈ ms, e.2 = f e.1) :
    ms = (member_names ms).map (fun c => (c, f c)) := by
  induction ms with
  | nil => rfl
  | cons e ms ih =>
    have he := hms e (List.mem_cons_self e ms)
    have ih2 := ih (fun x hx => hms x (List.mem_cons_of_mem e hx))
    simp only [member_names, List.map_cons, List.map_map] at ih2 ⊢
    rw [← he]
    exact congrArg (List.cons e) ih2

theorem get_member_of_values (f : String → JsonNode) (ms : List (String × JsonNode))
    (hms : ∀ e ∈ ms, e.2 = f e.1) (k : String) (hk : k ∈ member_names ms) :
    json_object_get_member ms k = some (f k) := by
  unfold json_object_get_member
  induction ms with
  | nil => simp [member_names] at hk
  | cons e ms ih =>
    by_cases he : e.1 = k
    · have := hms e (List.mem_cons_self e ms)
      simp [List.find?, he, ← this]
      rw [this, he]
    · have hk2 : k ∈ member_names ms := by
        simp only [member_names, List.map_cons, List.mem_cons] at hk
        rcases hk with hk | hk
        · exact absurd hk.symm he
        · exact hk
      simp only [List.find?_cons, he, decide_False]
      exact ih (fun x hx => hms x (List.mem_cons_of_mem e hx)) hk2

/-! ## list_entries -/

theorem filter_none (names : List String) : names.filter (passes none) = names := by
  simp [passes]

theorem mem_filter_some (names : List String) (name k : String) :
    k ∈ names.filter (passes (some name)) ↔ k = name ∧ name ∈ names := by
  simp only [List.mem_filter, passes, decide_eq_true_eq]
  constructor
  · rintro ⟨hk, rfl⟩
    exact ⟨rfl, hk⟩
  · rintro ⟨rfl, hk⟩
    exact ⟨hk, rfl⟩

theorem nodup_all_eq (ks : List String) (k : String) (hnd : ks.Nodup) (hk : k ∈ ks)
    (hall : ∀ x ∈ ks, x = k) : ks = [k] := by
  cases ks with
  | nil => simp at hk
  | cons a t =>
    have ha : a = k := hall a (List.mem_cons_self a t)
    cases t with
    | nil => rw [ha]
    | cons b t2 =>
      have hb : b = k := hall b (by simp)
      rw [List.nodup_cons] at hnd
      exact absurd (by simp [ha, hb]) hnd.1

/-- C1: for every table whose chain enumeration yields at least one chain,
`list_entries` without a filter returns true, and the `chains` object it writes
into the current object scope has exactly one entry per enumerated chain, keyed
by the name of the chain and holding its summary, no other entry, and its keys in
the order of the enumeration (they are the enumerated names when those are
pairwise distinct). -/
theorem list_entries_no_filter (handle : xtc_handle) (ms : List (String × JsonNode))
    (arr : List JsonNode) (pm : Option String) (rest : List JsonBuilderState)
    (crit errno : Nat) (hne : handle.chain_names ≠ []) :
    (list_entries handle none (JsonBuilder.in_object ms arr pm rest crit) errno).found = true ∧
    ∃ chains,
      json_object_get_member
        (list_entries handle none (JsonBuilder.in_object ms arr pm rest crit)
          errno).builder.current_members "chains" = some (.object chains) ∧
      (∀ c ∈ handle.chain_names, (member_names chains).count c = 1) ∧
      (∀ e ∈ chains, e.1 ∈ handle.chain_names ∧ e.2 = chain_summary handle e.1) ∧
      (member_names chains).Sublist handle.chain_names ∧
      (handle.chain_names.Nodup →
        chains = handle.chain_names.map (fun c => (c, chain_summary handle c))) := by
  rw [list_entries_in_object]
  have hnames := member_names_chain_entries handle none handle.chain_names []
  rw [filter_none] at hnames
  have hvals := values_chain_entries handle none handle.chain_names []
    (by intro e he; simp at he)
  have hnd : (member_names (chain_entries handle none handle.chain_names [])).Nodup := by
    rw [hnames]
    exact foldl_add_name_nodup _ _ (by simp [member_names])
  have hmem : ∀ k, k ∈ member_names (chain_entries handle none handle.chain_names [])
      ↔ k ∈ handle.chain_names := by
    intro k
    rw [hnames, mem_foldl_add_name]
    simp [member_names]
  refine ⟨?_, chain_entries handle none handle.chain_names [], ?_, ?_, ?_, ?_, ?_⟩
  · cases hc : handle.chain_names with
    | nil => exact absurd hc hne
    | cons c cs => simp [passes]
  · simp only [JsonBuilder.current_members, JsonBuilder.in_object]
    exact get_member_set_member ms "chains" _
  · intro c hc
    exact List.count_eq_one_of_mem hnd ((hmem c).mpr hc)
  · intro e he
    refine ⟨(hmem e.1).mp ?_, hvals e he⟩
    exact List.mem_map.mpr ⟨e, he, rfl⟩
  · obtain ⟨t, ht, hsub⟩ := foldl_add_name_sublist handle.chain_names (member_names [])
    rw [hnames, ht]
    simpa [member_names] using hsub
  · intro hdistinct
    have hkeys : member_names (chain_entries handle none handle.chain_names [])
        = handle.chain_names := by
      rw [hnames, foldl_add_name_of_nodup]
      · simp [member_names]
      · simpa [member_names] using hdistinct
    have := entries_eq_map_names (chain_summary handle) _ hvals
    rw [hkeys] at this
    exact this

theorem list_entries_no_filter_witness :
    filter_table.chain_names ≠ [] ∧
    (list_entries filter_table none (JsonBuilder.in_object [] [] none [] 0) 0).found = true :=
  ⟨by decide, (list_entries_no_filter filter_table [] [] none [] 0 0 (by decide)).1⟩

/-- C2: with a filter, the `chains` object `list_entries` writes never has an entry
whose key differs from the filter; and for a table with pairwise distinct chain
names and a filter equal to the name of one of its chains, `list_entries` returns
true and `chains` has exactly one entry, keyed by the filter and holding the summary
of that chain. -/
theorem list_entries_filter (handle : xtc_handle) (name : String)
    (ms : List (String × JsonNode)) (arr : List JsonNode) (pm : Option String)
    (rest : List JsonBuilderState) (crit errno : Nat) :
    ∃ chains,
      json_object_get_member
        (list_entries handle (some name) (JsonBuilder.in_object ms arr pm rest crit)
          errno).builder.current_members "chains" = some (.object chains) ∧
      (∀ e ∈ chains, e.1 = name) ∧
      (handle.chain_names.Nodup → name ∈ handle.chain_names →
        (list_entries handle (some name) (JsonBuilder.in_object ms arr pm rest crit)
          errno).found = true ∧
        chains = [(name, chain_summary handle name)]) := by
  rw [list_entries_in_object]
  have hnames := member_names_chain_entries handle (some name) handle.chain_names []
  have hvals := values_chain_entries handle (some name) handle.chain_names []
    (by intro e he; simp at he)
  have hmem : ∀ k, k ∈ member_names (chain_entries handle (some name) handle.chain_names [])
      ↔ k = name ∧ name ∈ handle.chain_names := by
    intro k
    rw [hnames, mem_foldl_add_name, mem_filter_some]
    simp [member_names]
  refine ⟨chain_entries handle (some name) handle.chain_names [], ?_, ?_, ?_⟩
  · simp only [JsonBuilder.current_members, JsonBuilder.in_object]
    exact get_member_set_member ms "chains" _
  · intro e he
    exact ((hmem e.1).mp (List.mem_map.mpr ⟨e, he, rfl⟩)).1
  · intro _ hin
    constructor
    · simp only [List.any_eq_true]
      exact ⟨name, hin, by simp [passes]⟩
    · have hnd : (member_names
          (chain_entries handle (some name) handle.chain_names [])).Nodup := by
        rw [hnames]
        exact foldl_add_name_nodup _ _ (by simp [member_names])
      have hkeys := nodup_all_eq _ name hnd ((hmem name).mpr ⟨rfl, hin⟩)
        (fun x hx => ((hmem x).mp hx).1)
      have := entries_eq_map_names (chain_summary handle) _ hvals
      rw [hkeys] at this
      simpa using this

theorem list_entries_filter_witness :
    filter_table.chain_names.Nodup ∧ "LOGDROP" ∈ filter_table.chain_names ∧
    ∃ chains,
      json_object_get_member
        (list_entries filter_table (some "LOGDROP") (JsonBuilder.in_object [] [] none [] 0)
          0).builder.current_members "chains" = some (.object chains) ∧
      (∀ e ∈ chains, e.1 = "LOGDROP") ∧
      (filter_table.chain_names.Nodup → "LOGDROP" ∈ filter_table.chain_names →
        (list_entries filter_table (some "LOGDROP") (JsonBuilder.in_object [] [] none [] 0)
          0).found = true ∧
        chains = [("LOGDROP", chain_summary filter_table "LOGDROP")]) :=
  ⟨by decide, by decide, list_entries_filter filter_table "LOGDROP" [] [] none [] 0 0⟩

/-- C3: for every table and every filter name that is not the name of one of its
chains, `list_entries` returns false with errno set to ENOENT, and the `chains`
member is written all the same, as an empty object. -/
theorem list_entries_not_found (handle : xtc_handle) (name : String)
    (ms : List (String × JsonNode)) (arr : List JsonNode) (pm : Option String)
    (rest : List JsonBuilderState) (crit errno : Nat)
    (hnot : name ∉ handle.chain_names) :
    (list_entries handle (some name) (JsonBuilder.in_object ms arr pm rest crit)
      errno).found = false ∧
    (list_entries handle (some name) (JsonBuilder.in_object ms arr pm rest crit)
      errno).errno = ENOENT ∧
    json_object_get_member
      (list_entries handle (some name) (JsonBuilder.in_object ms arr pm rest crit)
        errno).builder.current_members "chains" = some (.object []) := by
  rw [list_entries_in_object]
  have hsel : handle.chain_names.filter (passes (some name)) = [] := by
    rw [List.filter_eq_nil_iff]
    intro k hk hpass
    simp only [passes, decide_eq_true_eq] at hpass
    exact hnot (hpass ▸ hk)
  have hany : handle.chain_names.any (passes (some name)) = false := by
    rw [List.any_eq_false]
    intro k hk hpass
    simp only [passes, decide_eq_true_eq] at hpass
    exact hnot (hpass ▸ hk)
  refine ⟨hany, ?_, ?_⟩
  · simp [hany]
  · simp only [JsonBuilder.current_members, JsonBuilder.in_object]
    rw [get_member_set_member]
    simp [chain_entries, hsel]

theorem list_entries_not_found_witness :
    "DOESNOTEXIST" ∉ filter_table.chain_names ∧
    (list_entries filter_table (some "DOESNOTEXIST") (JsonBuilder.in_object [] [] none [] 0)
      0).found = false ∧
    (list_entries filter_table (some "DOESNOTEXIST") (JsonBuilder.in_object [] [] none [] 0)
      0).errno = ENOENT ∧
    json_object_get_member
      (list_entries filter_table (some "DOESNOTEXIST") (JsonBuilder.in_object [] [] none [] 0)
        0).builder.current_members "chains" = some (.object []) :=
  ⟨by decide, list_entries_not_found filter_table "DOESNOTEXIST" [] [] none [] 0 0 (by decide)⟩

/-! ## print_header -/

/-- C5: for every chain whose policy query returns no policy, `print_header` writes
type = "user", then `refs` = the reference count exactly when the reference-count
query succeeds, and nothing else (no policy, packets or bytes member); and when
that query fails, `list_entries` on a table that enumerates the chain (and whose
filter lets it pass) still returns true and still adds the entry of the chain to
`chains`, holding type = "user" and the empty `rules` array, without `refs`. -/
theorem print_header_user (handle : xtc_handle) (chain : String)
    (ms : List (String × JsonNode)) (arr : List JsonNode)
    (pm : Option String) (rest : List JsonBuilderState) (crit : Nat)
    (hpol : handle.get_policy chain = none) :
    print_header handle chain (JsonBuilder.in_object ms arr pm rest crit)
      = JsonBuilder.in_object
          (set_members ms
            (("type", .str "user") ::
              match handle.get_references chain with
              | some refs => [("refs", .int refs)]
              | none => []))
          arr pm rest crit ∧
    print_header handle chain (JsonBuilder.in_object [] arr pm rest crit)
      = JsonBuilder.in_object
          (("type", .str "user") ::
            match handle.get_references chain with
            | some refs => [("refs", .int refs)]
            | none => [])
          arr pm rest crit ∧
    (handle.get_references chain = none →
      ∀ (list_chain : Option String) (errno : Nat),
        chain ∈ handle.chain_names → passes list_chain chain = true →
        (list_entries handle list_chain (JsonBuilder.in_object ms arr pm rest crit)
          errno).found = true ∧
        ∃ chains,
          json_object_get_member
            (list_entries handle list_chain (JsonBuilder.in_object ms arr pm rest crit)
              errno).builder.current_members "chains" = some (.object chains) ∧
          json_object_get_member chains chain
            = some (.object [("type", .str "user"), ("rules", .array [])])) := by
  refine ⟨?_, ?_, ?_⟩
  · rw [print_header_in_object]
    cases hr : handle.get_references chain <;> simp [header_members, hpol, hr]
  · rw [print_header_in_object, set_members_header_nil]
    cases hr : handle.get_references chain <;> simp [header_members, hpol, hr]
  · intro href list_chain errno hin hpass
    rw [list_entries_in_object]
    refine ⟨?_, chain_entries handle list_chain handle.chain_names [], ?_, ?_⟩
    · simp only [List.any_eq_true]
      exact ⟨chain, hin, hpass⟩
    · simp only [JsonBuilder.current_members, JsonBuilder.in_object]
      exact get_member_set_member ms "chains" _
    · have hvals := values_chain_entries handle list_chain handle.chain_names []
        (by intro e he; simp at he)
      have hmem : chain ∈ member_names (chain_entries handle list_chain handle.chain_names []) := by
        rw [member_names_chain_entries, mem_foldl_add_name]
        exact Or.inr (List.mem_filter.mpr ⟨hin, hpass⟩)
      rw [get_member_of_values (chain_summary handle) _ hvals chain hmem]
      simp [chain_summary, header_members, hpol, href]

theorem print_header_user_witness :
    orphan_table.get_policy "ORPHAN" = none ∧ orphan_table.get_references "ORPHAN" = none ∧
    "ORPHAN" ∈ orphan_table.chain_names ∧
    (list_entries orphan_table none (JsonBuilder.in_object [] [] none [] 0) 0).found = true ∧
    ∃ chains,
      json_object_get_member
        (list_entries orphan_table none (JsonBuilder.in_object [] [] none [] 0)
          0).builder.current_members "chains" = some (.object chains) ∧
      json_object_get_member chains "ORPHAN"
        = some (.object [("type", .str "user"), ("rules", .array [])]) :=
  ⟨rfl, rfl, by decide,
    (print_header_user orphan_table "ORPHAN" [] [] none [] 0 rfl).2.2 rfl none 0
      (by decide) rfl⟩

/-! ## main -/

theorem main_header_eq (env : Env) :
    main_header env
      = JsonBuilder.in_object
          [("protocol", .str env.PACKAGE_NAME), ("app", .str env.PACKAGE_URL),
           ("version", .array [.int 1, .int 1])] [] none [] 0 := rfl

theorem main_try_thrown (env : Env) (builder : JsonBuilder)
    (hfail : env.xtables_init_all ≠ 0 ∨ env.iptc_init = none) :
    main_try env builder = .thrown
      (if env.xtables_init_all ≠ 0 then "failed to initialize xtables"
       else "failed to initialize iptables table \x27" ++ "filter" ++ "\x27: "
         ++ env.iptc_strerror env.errno) := by
  unfold main_try
  by_cases hx : env.xtables_init_all ≠ 0
  · simp [hx]
  · rcases hfail with h | h
    · exact absurd h hx
    · simp [hx, h]

/-- C7: for every run in which xtables initialisation fails or the table cannot be
opened: with an empty gateway interface the process exits with status 1 and writes
no response; otherwise it exits with status 1 and the response has status 500 and a
document whose `error` member holds the failure message and which has no `chains`
member. -/
theorem main_setup_failure (env : Env) (hcgi : env.cgicc_exception = none)
    (hfail : env.xtables_init_all ≠ 0 ∨ env.iptc_init = none) :
    (env.gateway_interface = "" →
      (main env).exit_status = 1 ∧ (main env).stdout = none) ∧
    (env.gateway_interface ≠ "" →
      (main env).exit_status = 1 ∧
      ∃ resp members,
        (main env).stdout = some resp ∧ resp.status = 500 ∧
        resp.body = some (.object members) ∧
        json_object_get_member members "error" = some (.str
          (if env.xtables_init_all ≠ 0 then "failed to initialize xtables"
           else "failed to initialize iptables table \x27" ++ "filter" ++ "\x27: "
             ++ env.iptc_strerror env.errno)) ∧
        json_object_get_member members "chains" = none) := by
  constructor
  · intro hg
    simp [main, hcgi, main_try_thrown env _ hfail, hg]
  · intro hg
    simp only [main, hcgi, main_try_thrown env _ hfail, hg, decide_False]
    generalize (if env.xtables_init_all ≠ 0 then "failed to initialize xtables"
      else "failed to initialize iptables table \x27" ++ "filter" ++ "\x27: "
        ++ env.iptc_strerror env.errno) = what
    refine ⟨by simp [main_finish], _,
      [("protocol", .str env.PACKAGE_NAME), ("app", .str env.PACKAGE_URL),
        ("version", .array [.int 1, .int 1]), ("error", .str what)], rfl, rfl, rfl, ?_, ?_⟩
    · simp [json_object_get_member]
    · rfl

theorem main_setup_failure_witness :
    (cgi_env none).cgicc_exception = none ∧ (cgi_env none).iptc_init = none ∧
    (cgi_env none).gateway_interface ≠ "" ∧
    (main (cgi_env none)).exit_status = 1 ∧
    ∃ resp members,
      (main (cgi_env none)).stdout = some resp ∧ resp.status = 500 ∧
      resp.body = some (.object members) ∧
      json_object_get_member members "error" = some (.str
        (if (cgi_env none).xtables_init_all ≠ 0 then "failed to initialize xtables"
         else "failed to initialize iptables table \x27" ++ "filter" ++ "\x27: "
           ++ (cgi_env none).iptc_strerror (cgi_env none).errno)) ∧
      json_object_get_member members "chains" = none :=
  ⟨rfl, rfl, by decide,
    (main_setup_failure (cgi_env none) rfl (Or.inr rfl)).2 (by decide)⟩

theorem main_opened_found (env : Env) (handle : xtc_handle)
    (hcgi : env.cgicc_exception = none) (hx : env.xtables_init_all = 0)
    (hopen : env.iptc_init = some handle)
    (hany : handle.chain_names.any (passes none) = true) :
    main env =
      main_finish env 200 [] 1
        (JsonBuilder.in_object
          [("protocol", .str env.PACKAGE_NAME), ("app", .str env.PACKAGE_URL),
           ("version", .array [.int 1, .int 1]),
           ("chains", .object (chain_entries handle none handle.chain_names []))]
          [] none [] 0) := by
  simp only [main, hcgi, main_try, hx, hopen, main_header_eq, list_entries_in_object, hany,
    if_true]
  rfl

theorem main_opened_not_found (env : Env) (handle : xtc_handle)
    (hcgi : env.cgicc_exception = none) (hx : env.xtables_init_all = 0)
    (hopen : env.iptc_init = some handle)
    (hany : handle.chain_names.any (passes none) = false) :
    main env =
      if env.diagnostic_errno.getD ENOENT = EAGAIN then
        { exit_status := RESOURCE_PROBLEM, stdout := none,
          stderr := ["iptables: " ++ env.iptc_strerror ENOENT ++ "."],
          iptc_free_calls := 0,
          builder := JsonBuilder.in_object
            [("protocol", .str env.PACKAGE_NAME), ("app", .str env.PACKAGE_URL),
             ("version", .array [.int 1, .int 1]),
             ("chains", .object (chain_entries handle none handle.chain_names []))]
            [] none [] 0 }
      else
        main_finish env 200 ["iptables: " ++ env.iptc_strerror ENOENT ++ "."] 0
          (JsonBuilder.in_object
            [("protocol", .str env.PACKAGE_NAME), ("app", .str env.PACKAGE_URL),
             ("version", .array [.int 1, .int 1]),
             ("chains", .object (chain_entries handle none handle.chain_names []))]
            [] none [] 0) := by
  simp only [main, hcgi, main_try, hx, hopen, main_header_eq, list_entries_in_object, hany]
  by_cases hd : env.diagnostic_errno.getD ENOENT = EAGAIN
  · simp only [hd, if_true]
    simp only [Bool.false_eq_true, if_false, hd, if_true]
    rfl
  · simp only [hd, if_false]
    simp only [Bool.false_eq_true, if_false, hd]
    rfl

theorem list_entries_errno (handle : xtc_handle) (list_chain : Option String)
    (builder : JsonBuilder) (errno : Nat) :
    (list_entries handle list_chain builder errno).errno
      = if (list_entries handle list_chain builder errno).found then 0 else ENOENT := rfl

theorem main_not_opened (env : Env)
    (hfail : env.cgicc_exception ≠ none ∨ env.xtables_init_all ≠ 0 ∨ env.iptc_init = none) :
    (main env).iptc_free_calls = 0 ∧ (main env).exit_status = 1 := by
  cases hcgi : env.cgicc_exception with
  | some what => simp [main, hcgi]
  | none =>
    have hfail2 : env.xtables_init_all ≠ 0 ∨ env.iptc_init = none := by
      rcases hfail with h | h
      · exact absurd hcgi h
      · exact h
    have hthrown := main_try_thrown env (main_header env) hfail2
    by_cases hg : env.gateway_interface = ""
    · simp [main, hcgi, hthrown, hg]
    · simp [main, hcgi, hthrown, hg, main_finish]

theorem main_cases (env : Env) :
    (env.cgicc_exception ≠ none ∨ env.xtables_init_all ≠ 0 ∨ env.iptc_init = none) ∨
    ∃ handle, env.cgicc_exception = none ∧ env.xtables_init_all = 0 ∧
      env.iptc_init = some handle := by
  cases hcgi : env.cgicc_exception with
  | some what => exact Or.inl (Or.inl (by simp))
  | none =>
    by_cases hx : env.xtables_init_all = 0
    · cases hopen : env.iptc_init with
      | some handle => exact Or.inr ⟨handle, rfl, hx, rfl⟩
      | none => exact Or.inl (Or.inr (Or.inr rfl))
    · exact Or.inl (Or.inr (Or.inl hx))

theorem main_exit_status_opened (env : Env) (handle : xtc_handle)
    (hcgi : env.cgicc_exception = none) (hx : env.xtables_init_all = 0)
    (hopen : env.iptc_init = some handle) :
    (main env).exit_status =
      if handle.chain_names.any (passes none) = true then 0
      else if env.diagnostic_errno.getD ENOENT = EAGAIN then RESOURCE_PROBLEM else 0 := by
  by_cases hany : handle.chain_names.any (passes none) = true
  · rw [main_opened_found env handle hcgi hx hopen hany]
    simp [hany, main_finish]
  · have hany2 : handle.chain_names.any (passes none) = false := by simpa using hany
    rw [main_opened_not_found env handle hcgi hx hopen hany2]
    by_cases hd : env.diagnostic_errno.getD ENOENT = EAGAIN
    · simp [hany2, hd]
    · simp [hany2, hd, main_finish]

/-- C8: on every run of `main` that writes a response, after the final
`json_builder_end_object` the builder has no open scope, no builder call was
rejected (so every member name was followed by exactly one value and every scope
was closed in the mode it was opened in), and the root is the object that is sent
as the body; `list_entries` leaves the stack of open scopes exactly as deep as it
found it and has none of its calls rejected, for every table and filter; and the
builder at the point where the `error` member is added has the root object as its
only open scope. -/
theorem main_document_well_formed (env : Env) :
    ((main env).stdout ≠ none →
      (main env).builder.stack = [] ∧ (main env).builder.criticals = 0 ∧
      ∃ resp members,
        (main env).stdout = some resp ∧ resp.body = some (.object members) ∧
        (main env).builder.root = some (.object members)) ∧
    (∀ (handle : xtc_handle) (list_chain : Option String) (ms : List (String × JsonNode))
        (arr : List JsonNode) (pm : Option String) (rest : List JsonBuilderState)
        (crit errno : Nat),
      (list_entries handle list_chain (JsonBuilder.in_object ms arr pm rest crit)
          errno).builder.stack.length
        = (JsonBuilder.in_object ms arr pm rest crit).stack.length ∧
      (list_entries handle list_chain (JsonBuilder.in_object ms arr pm rest crit)
          errno).builder.criticals = crit) ∧
    (∃ members, main_header env = JsonBuilder.in_object members [] none [] 0) := by
  refine ⟨?_, ?_, ⟨_, main_header_eq env⟩⟩
  · intro hout
    cases hcgi : env.cgicc_exception with
    | some what => simp [main, hcgi] at hout
    | none =>
      by_cases hx : env.xtables_init_all = 0
      · cases hopen : env.iptc_init with
        | some handle =>
          by_cases hany : handle.chain_names.any (passes none) = true
          · rw [main_opened_found env handle hcgi hx hopen hany]
            exact ⟨rfl, rfl, _, _, rfl, rfl, rfl⟩
          · have hany2 : handle.chain_names.any (passes none) = false := by simpa using hany
            rw [main_opened_not_found env handle hcgi hx hopen hany2] at hout ⊢
            by_cases hd : env.diagnostic_errno.getD ENOENT = EAGAIN
            · simp [hd] at hout
            · simp only [hd, if_false]
              exact ⟨rfl, rfl, _, _, rfl, rfl, rfl⟩
        | none =>
          have hthrown := main_try_thrown env (main_header env) (Or.inr hopen)
          by_cases hg : env.gateway_interface = ""
          · simp [main, hcgi, hthrown, hg] at hout
          · simp only [main, hcgi, hthrown, hg, decide_False]
            exact ⟨rfl, rfl, _, _, rfl, rfl, rfl⟩
      · have hthrown := main_try_thrown env (main_header env) (Or.inl hx)
        by_cases hg : env.gateway_interface = ""
        · simp [main, hcgi, hthrown, hg] at hout
        · simp only [main, hcgi, hthrown, hg, decide_False]
          exact ⟨rfl, rfl, _, _, rfl, rfl, rfl⟩
  · intro handle list_chain ms arr pm rest crit errno
    rw [list_entries_in_object]
    exact ⟨rfl, rfl⟩

theorem main_document_well_formed_witness :
    (main (cgi_env (some filter_table))).stdout ≠ none ∧
    (main (cgi_env (some filter_table))).builder.stack = [] ∧
    (main (cgi_env (some filter_table))).builder.criticals = 0 ∧
    ∃ resp members,
      (main (cgi_env (some filter_table))).stdout = some resp ∧
      resp.body = some (.object members) ∧
      (main (cgi_env (some filter_table))).builder.root = some (.object members) :=
  ⟨by simp [main_opened_found (cgi_env (some filter_table)) filter_table rfl rfl rfl rfl,
      main_finish],
    (main_document_well_formed (cgi_env (some filter_table))).1
      (by simp [main_opened_found (cgi_env (some filter_table)) filter_table rfl rfl rfl rfl,
        main_finish])⟩

/-- C6 (the code departs from it): on the run from the command line and on the run
behind a web server in which the table opens and enumerates no chain,
`list_entries` returns false with errno ENOENT, and `main` then answers with
status 200 and exits with status 0. -/
theorem main_not_found_exit_status :
    (list_entries empty_table none (main_header (cli_env (some empty_table))) 0).found = false ∧
    (list_entries empty_table none (main_header (cli_env (some empty_table))) 0).errno = ENOENT ∧
    (main (cli_env (some empty_table))).exit_status = 0 ∧
    (main (cli_env (some empty_table))).stdout.map HTTPResponse.status = some 200 ∧
    (main (cgi_env (some empty_table))).exit_status = 0 ∧
    (main (cgi_env (some empty_table))).stdout.map HTTPResponse.status = some 200 :=
  ⟨rfl, rfl, rfl, rfl, rfl, rfl⟩

/-- C9 (as stated it fails): on the run in which the table opens and enumerates no
chain, so that the traversal fails with not-found, `iptc_free` is not called at
all. -/
theorem main_not_found_never_frees :
    (cli_env (some empty_table)).cgicc_exception = none ∧
    (cli_env (some empty_table)).xtables_init_all = 0 ∧
    (cli_env (some empty_table)).iptc_init = some empty_table ∧
    (list_entries empty_table none (main_header (cli_env (some empty_table))) 0).found = false ∧
    (main (cli_env (some empty_table))).iptc_free_calls = 0 ∧
    ¬ ((main (cli_env (some empty_table))).iptc_free_calls = 1) :=
  ⟨rfl, rfl, rfl, rfl, rfl, by decide⟩

/-- C9 (amended): on no run of `main` is `iptc_free` called more than once, and on
every run in which the table was opened and the traversal succeeded it is called
exactly once before the process exits (with status 0). -/
theorem main_frees_handle_on_success (env : Env) :
    (main env).iptc_free_calls ≤ 1 ∧
    ∀ handle : xtc_handle,
      env.cgicc_exception = none → env.xtables_init_all = 0 →
      env.iptc_init = some handle →
      (list_entries handle none (main_header env) env.errno).found = true →
      (main env).iptc_free_calls = 1 ∧ (main env).exit_status = 0 := by
  constructor
  · rcases main_cases env with hfail | ⟨handle, hcgi, hx, hopen⟩
    · rw [(main_not_opened env hfail).1]
      exact Nat.zero_le 1
    · by_cases hany : handle.chain_names.any (passes none) = true
      · rw [main_opened_found env handle hcgi hx hopen hany]
        exact Nat.le_refl 1
      · have hany2 : handle.chain_names.any (passes none) = false := by simpa using hany
        rw [main_opened_not_found env handle hcgi hx hopen hany2]
        split
        · exact Nat.zero_le 1
        · exact Nat.zero_le 1
  · intro handle hcgi hx hopen hfound
    rw [main_header_eq, list_entries_in_object] at hfound
    simp only at hfound
    rw [main_opened_found env handle hcgi hx hopen hfound]
    exact ⟨rfl, rfl⟩

theorem main_frees_handle_on_success_witness :
    (cli_env (some filter_table)).cgicc_exception = none ∧
    (cli_env (some filter_table)).xtables_init_all = 0 ∧
    (cli_env (some filter_table)).iptc_init = some filter_table ∧
    (list_entries filter_table none (main_header (cli_env (some filter_table)))
      (cli_env (some filter_table)).errno).found = true ∧
    (main (cli_env (some filter_table))).iptc_free_calls = 1 ∧
    (main (cli_env (some filter_table))).exit_status = 0 :=
  ⟨rfl, rfl, rfl, rfl,
    (main_frees_handle_on_success (cli_env (some filter_table))).2 filter_table rfl rfl rfl rfl⟩

/-- C10 (the code departs from it): `list_entries` never leaves errno at EAGAIN,
whatever the enumeration stored there, and the exit status of `main` is the same
whatever errno the enumeration left; a run exits with RESOURCE_PROBLEM only when
the calls writing the diagnostic line leave errno at EAGAIN. On the runs in which
the chain enumeration stops with errno EAGAIN, at once or after the chain INPUT,
and the diagnostic line leaves errno alone, `main` exits with status 0; after the
chain INPUT it exits with status 0 even when the diagnostic calls would leave
EAGAIN; and on a table that reports nothing busy and enumerates no chain it exits
with RESOURCE_PROBLEM when they do. -/
theorem main_busy_exit_status :
    (∀ (handle : xtc_handle) (list_chain : Option String) (builder : JsonBuilder)
        (errno : Nat),
      (list_entries handle list_chain builder errno).errno ≠ EAGAIN) ∧
    (∀ (env : Env) (handle : xtc_handle) (e : Option Nat),
      (main { env with iptc_init := some { handle with end_errno := e } }).exit_status
        = (main { env with iptc_init := some handle }).exit_status) ∧
    (∀ env : Env, (main env).exit_status = RESOURCE_PROBLEM →
      env.diagnostic_errno = some EAGAIN) ∧
    busy_table.end_errno = some EAGAIN ∧
    (main (cli_env (some busy_table))).exit_status = 0 ∧
    (main (cli_env (some busy_table))).stdout.map HTTPResponse.status = some 200 ∧
    busy_after_input_table.end_errno = some EAGAIN ∧
    (main (cli_env (some busy_after_input_table))).exit_status = 0 ∧
    (main (blocked_stderr_env (some busy_after_input_table))).exit_status = 0 ∧
    empty_table.end_errno = none ∧
    (main (blocked_stderr_env (some empty_table))).exit_status = RESOURCE_PROBLEM := by
  refine ⟨?_, ?_, ?_, rfl, rfl, rfl, rfl, rfl, rfl, rfl, rfl⟩
  · intro handle list_chain builder errno
    rw [list_entries_errno]
    split <;> decide
  · intro env handle e
    by_cases hcgi : env.cgicc_exception = none
    · by_cases hx : env.xtables_init_all = 0
      · exact (main_exit_status_opened
            { env with iptc_init := some { handle with end_errno := e } }
            { handle with end_errno := e } hcgi hx rfl).trans
          (main_exit_status_opened { env with iptc_init := some handle } handle
            hcgi hx rfl).symm
      · exact (main_not_opened
            { env with iptc_init := some { handle with end_errno := e } }
            (Or.inr (Or.inl hx))).2.trans
          (main_not_opened { env with iptc_init := some handle }
            (Or.inr (Or.inl hx))).2.symm
    · exact (main_not_opened
          { env with iptc_init := some { handle with end_errno := e } }
          (Or.inl hcgi)).2.trans
        (main_not_opened { env with iptc_init := some handle } (Or.inl hcgi)).2.symm
  · intro env hexit
    rcases main_cases env with hfail | ⟨handle, hcgi, hx, hopen⟩
    · rw [(main_not_opened env hfail).2] at hexit
      exact absurd hexit (by decide)
    · rw [main_exit_status_opened env handle hcgi hx hopen] at hexit
      by_cases hany : handle.chain_names.any (passes none) = true
      · rw [if_pos hany] at hexit
        exact absurd hexit (by decide)
      · rw [if_neg hany] at hexit
        by_cases hd : env.diagnostic_errno.getD ENOENT = EAGAIN
        · cases hdiag : env.diagnostic_errno with
          | none =>
            rw [hdiag] at hd
            exact absurd hd (by decide)
          | some v =>
            rw [hdiag] at hd
            simp only [Option.getD_some] at hd
            rw [hd]
        · rw [if_neg hd] at hexit
          exact absurd hexit (by decide)

theorem main_busy_exit_status_witness :
    (main (blocked_stderr_env (some empty_table))).exit_status = RESOURCE_PROBLEM ∧
    (blocked_stderr_env (some empty_table)).diagnostic_errno = some EAGAIN :=
  ⟨rfl, main_busy_exit_status.2.2.1 (blocked_stderr_env (some empty_table)) rfl⟩

end Netgraph
